import Mathlib

/-!
A shallow embedding of the jMetalPy NSGA-II module
(`jmetal/algorithm/multiobjective/nsgaii.py`) together with the pieces of the
data model it relies on (`jmetal/core/problem.py`,
`jmetalpy/problem/multiobjective/dtlz.py`).

Real-valued decision variables, objectives and constraints are modelled by
rationals.  Python lists become Lean lists, in-place mutation becomes explicit
state passing, and the dask futures machinery of `DistributedNSGAII.run`
becomes a deterministic step function parameterised by an oracle (`sched`)
that chooses which outstanding future completes next.
-/

/-- Embedding of a jMetalPy solution: decision variables, objective values and
constraint values (`constraints[i] < 0` denotes a violation of magnitude
`-constraints[i]`). -/
structure Solution where
  vars : List ℚ
  objectives : List ℚ
  constraints : List ℚ
deriving DecidableEq, Repr

instance : Inhabited Solution := ⟨⟨[], [], []⟩⟩

/-- Modelled from the spec: total constraint violation of a solution, the sum
of the magnitudes of its violated constraints (spec §3, §4.1). -/
def violationDegree (s : Solution) : ℚ :=
  (s.constraints.map (fun c => if c < 0 then -c else 0)).sum

/-- Modelled from the spec: Pareto dominance in the minimization sense
(spec §4.1): `a` is no worse than `b` in every objective and strictly better
in at least one. -/
def paretoDominates (a b : Solution) : Bool :=
  ((a.objectives.zip b.objectives).all fun p => decide (p.1 ≤ p.2)) &&
  ((a.objectives.zip b.objectives).any fun p => decide (p.1 < p.2))

/-- Modelled from the spec: the constraint-aware dominance comparison of
spec §4.1 (the `DominanceComparator`, whose implementation is not part of the
source tree).  A solution with strictly less total constraint violation
dominates regardless of objectives; with equal violation, Pareto dominance on
the objectives decides. -/
def dominates (a b : Solution) : Bool :=
  if violationDegree a < violationDegree b then true
  else if violationDegree b < violationDegree a then false
  else paretoDominates a b

/-- Predicate selecting the members of the current non-dominated front:
`s` is not dominated by any member of `l` (spec §4.2). -/
def notDominatedIn (l : List Solution) (s : Solution) : Bool :=
  l.all (fun t => !dominates t s)

/-- Modelled from the spec: fast non-dominated sorting (spec §4.2), presented
as iterated peeling of the globally non-dominated front, which is the spec's
characterisation of the output (`F1` is globally non-dominated and each `Fk`
is non-dominated once `F1..F(k-1)` are removed).  The fuel argument bounds the
number of fronts; `l.length` fronts always suffice. -/
def peelFronts : Nat → List Solution → List (List Solution)
  | 0, _ => []
  | _ + 1, [] => []
  | fuel + 1, x :: xs =>
      (x :: xs).filter (notDominatedIn (x :: xs)) ::
        peelFronts fuel ((x :: xs).filter (fun s => !notDominatedIn (x :: xs) s))

/-- Modelled from the spec: the full non-dominated sort of a population. -/
def fastNonDominatedSort (l : List Solution) : List (List Solution) :=
  peelFronts l.length l

/-- Objective `m` of a solution (out-of-range reads yield `0`; they only occur
for degenerate inputs that violate the solution invariant of spec §3). -/
def objAt (s : Solution) (m : Nat) : ℚ := s.objectives.getD m 0

/-- Items carried through the crowding-distance computation: original position
in the front, the solution, and its accumulated crowding distance.  The
distance lives in `WithTop ℚ` because boundary solutions are assigned
`+infinity` (spec §4.3). -/
abbrev CrowdItem : Type := Nat × Solution × WithTop ℚ

/-- Modelled from the spec: one objective pass of the crowding-distance
computation (spec §4.3): sort the front by objective `m`, assign the two
boundary solutions distance `+infinity`, and add the normalised gap
`(objective[i+1] - objective[i-1]) / (max - min)` to each interior solution
(contribution `0` when `max = min`). -/
def crowdingPass (m : Nat) (ps : List CrowdItem) : List CrowdItem :=
  let ss := List.insertionSort (fun a b : CrowdItem => objAt a.2.1 m ≤ objAt b.2.1 m) ps
  let n := ss.length
  let mn := objAt ((ss.headD default).2.1) m
  let mx := objAt ((ss.getLastD default).2.1) m
  ss.mapIdx fun i it =>
    if i = 0 ∨ i = n - 1 then (it.1, it.2.1, (⊤ : WithTop ℚ))
    else (it.1, it.2.1,
      it.2.2 + (if mx = mn then (0 : WithTop ℚ)
        else (((objAt ((ss.getD (i + 1) default).2.1) m
                - objAt ((ss.getD (i - 1) default).2.1) m) / (mx - mn) : ℚ) : WithTop ℚ)))

/-- Modelled from the spec: crowding distances of a whole front, one pass per
objective, with the result put back into the front's original order (ties in
the subsequent truncation are broken by stable original order, spec §4.4). -/
def crowdingRanked (front : List Solution) : List CrowdItem :=
  let numObjs := (front.headD default).objectives.length
  let start : List CrowdItem := front.enum.map (fun p => (p.1, p.2, (0 : WithTop ℚ)))
  let computed := (List.range numObjs).foldl (fun ps m => crowdingPass m ps) start
  List.insertionSort (fun a b : CrowdItem => a.1 ≤ b.1) computed

/-- Modelled from the spec: a front sorted by crowding distance, descending
(infinity first), stably so that ties keep original order (spec §4.4). -/
def crowdingSortDesc (front : List Solution) : List Solution :=
  (List.insertionSort (fun a b : CrowdItem => b.2.2 ≤ a.2.2) (crowdingRanked front)).map
    (fun p => p.2.1)

/-- Modelled from the spec: accumulate whole fronts in rank order while they
fit; the first front that does not fit whole is crowding-sorted and truncated
to exactly the remaining capacity (spec §4.4). -/
def selectFronts : List (List Solution) → Nat → List Solution
  | [], _ => []
  | f :: fs, k =>
      if f.length ≤ k then f ++ selectFronts fs (k - f.length)
      else (crowdingSortDesc f).take k

/-- Modelled from the spec: `RankingAndCrowdingDistanceSelection(k).execute(l)`
(spec §4.4; the class itself is imported by `nsgaii.py` from
`jmetal.operator`, which is not part of the source tree). -/
def rcSelect (k : Nat) (l : List Solution) : List Solution :=
  selectFronts (fastNonDominatedSort l) k

/-- Embedding of `NSGAII.replacement` (nsgaii.py lines 77-86): join the parent
and offspring populations and apply ranking-and-crowding-distance selection
with the configured population size. -/
def NSGAII.replacement (populationSize : Nat)
    (population offspringPopulation : List Solution) : List Solution :=
  rcSelect populationSize (population ++ offspringPopulation)

/-- Progress event built by `DistributedNSGAII.update_progress` (nsgaii.py
lines 122-128): the keyword dictionary passed to `observable.notify_all`. -/
structure ProgressEvent where
  evaluations : Nat
  computingTime : ℚ
  solutions : List Solution
  referenceFront : Option (List Solution)
deriving DecidableEq, Repr

/-- Configuration of a `DistributedNSGAII` run (nsgaii.py lines 97-120): the
constructor arguments, with the external collaborators rendered as functions.
`createSolution i` is the `i`-th value produced by `problem.create_solution`,
`evaluateFn` is `problem.evaluate` as computed by a dask worker,
`selectionOp l i` is the `i`-th call of `selection_operator.execute(l)`,
`sched t` is the oracle choosing which outstanding future completes at the
`t`-th blocking wait (completions are consumed in arrival order, which the
coordinator does not control), and `elapsed` is the wall-clock duration
`time.time() - start_computing_time` observed when the main loop exits. -/
structure DConfig where
  populationSize : Nat
  maxEvaluations : Nat
  numberOfCores : Nat
  createSolution : Nat → Solution
  evaluateFn : Solution → Solution
  selectionOp : List Solution → Nat → Solution
  crossoverOp : List Solution → List Solution
  mutationOp : Solution → Solution
  referenceFront : Option (List Solution)
  sched : Nat → Nat
  elapsed : ℚ

/-- State of `DistributedNSGAII.run` between consumptions of completed
futures.  `taskPool` holds the solutions whose evaluation has been submitted
and not yet consumed (a future completes to `evaluateFn` of its solution);
`resultPopulation` is the `self.population` attribute (None until the end of
`run`); `notifyLog` records every `observable.notify_all` call; `selectLog`
records the list argument of every `selection_operator.execute` call;
`creations`, `selectionsMade` and `steps` count the calls made so far to
`create_solution`, to the selection operator and to the blocking wait. -/
structure DState where
  populationToEvaluate : List Solution
  population : List Solution
  evaluations : Nat
  taskPool : List Solution
  finishedLoop : Bool
  resultPopulation : Option (List Solution)
  totalComputingTime : ℚ
  cancelledCount : Nat
  notifyLog : List ProgressEvent
  selectLog : List (List Solution)
  creations : Nat
  selectionsMade : Nat
  steps : Nat
deriving DecidableEq, Repr

/-- State right after the prologue of `DistributedNSGAII.run` (nsgaii.py lines
139-149): `create_initial_population` draws `number_of_cores` solutions, one
evaluation is submitted per solution, and `population` starts empty.
`self.population` was set to None by the constructor (line 113) and
`self.evaluations`/`self.total_computing_time` to 0 (lines 118-120). -/
def initState (cfg : DConfig) : DState :=
  let p2e := (List.range cfg.numberOfCores).map cfg.createSolution
  { populationToEvaluate := p2e
    population := []
    evaluations := 0
    taskPool := p2e
    finishedLoop := false
    resultPopulation := none
    totalComputingTime := 0
    cancelledCount := 0
    notifyLog := []
    selectLog := []
    creations := cfg.numberOfCores
    selectionsMade := 0
    steps := 0 }

/-- Tail of each loop iteration (nsgaii.py lines 195-198): increment
`self.evaluations` a second time and, when the counter is a multiple of 10,
call `update_progress(population_to_evaluate)`, which notifies the observers
with the current counter, `self.total_computing_time` (still its initial
value during the run) and `population_to_evaluate` as `SOLUTIONS`. -/
def endOfIteration (cfg : DConfig) (s : DState) : DState :=
  let s := { s with evaluations := s.evaluations + 1 }
  if s.evaluations % 10 = 0 then
    { s with notifyLog := s.notifyLog ++
        [{ evaluations := s.evaluations
           computingTime := s.totalComputingTime
           solutions := s.populationToEvaluate
           referenceFront := cfg.referenceFront }] }
  else s

/-- Body of the main loop of `DistributedNSGAII.run` (nsgaii.py lines
152-198): consume one completed future.  If the task pool is empty the
iterator yields nothing and the state is unchanged (the `while` loop then
spins).  Otherwise: increment `evaluations`; while the population is not full,
append the completed result and submit the evaluation of a fresh random
solution; once full and while the budget check `evaluations <
max_evaluations` still passes, join the completed result to the population,
replace through `RankingAndCrowdingDistanceSelection(population_size)`, draw
two parents with `selection_operator.execute(population_to_evaluate)`, apply
crossover and in-place mutation to obtain `offspring[0]`, and submit its
evaluation; when the budget check fails, cancel every remaining outstanding
future and break out (skipping the second increment and the progress
notification). -/
def stepBody (cfg : DConfig) (s : DState) : DState :=
  if s.taskPool.length = 0 then s
  else
    let idx := cfg.sched s.steps % s.taskPool.length
    let fut := s.taskPool.getD idx default
    let remaining := s.taskPool.eraseIdx idx
    let evals1 := s.evaluations + 1
    if s.population.length < cfg.populationSize then
      let received := cfg.evaluateFn fut
      endOfIteration cfg
        { s with
            population := s.population ++ [received]
            evaluations := evals1
            taskPool := remaining ++ [cfg.createSolution s.creations]
            creations := s.creations + 1
            steps := s.steps + 1 }
    else if evals1 < cfg.maxEvaluations then
      let received := cfg.evaluateFn fut
      let joinPopulation := s.population ++ [received]
      let newPopulation := rcSelect cfg.populationSize joinPopulation
      let matingPopulation :=
        [cfg.selectionOp s.populationToEvaluate s.selectionsMade,
         cfg.selectionOp s.populationToEvaluate (s.selectionsMade + 1)]
      let offspring := cfg.crossoverOp matingPopulation
      let solutionToEvaluate := cfg.mutationOp (offspring.headD default)
      endOfIteration cfg
        { s with
            population := newPopulation
            evaluations := evals1
            taskPool := remaining ++ [solutionToEvaluate]
            selectLog := s.selectLog ++ [s.populationToEvaluate, s.populationToEvaluate]
            selectionsMade := s.selectionsMade + 2
            steps := s.steps + 1 }
    else
      { s with
          evaluations := evals1
          taskPool := []
          cancelledCount := s.cancelledCount + remaining.length
          finishedLoop := true
          steps := s.steps + 1 }

/-- Fuel-bounded iteration of the loop body: the `for future in task_pool`
loop runs until the `break` of the budget-exhaustion branch fires (after
which the `while` guard, re-checked with `evaluations >= max_evaluations`,
is false and the loop exits). -/
def loopIter (cfg : DConfig) : Nat → DState → DState
  | 0, s => s
  | fuel + 1, s => if s.finishedLoop then s else loopIter cfg fuel (stepBody cfg s)

/-- Epilogue of `DistributedNSGAII.run` (nsgaii.py lines 200-201): record the
total computing time and assign the local population to `self.population`. -/
def finishRun (cfg : DConfig) (s : DState) : DState :=
  { s with totalComputingTime := cfg.elapsed, resultPopulation := some s.population }

/-- Embedding of `DistributedNSGAII.run` (nsgaii.py lines 138-201).  The
initial `while` guard is checked once with `evaluations = 0`; if it passes,
the loop body runs until the break (fuel permitting; an unfinished state is
returned when the fuel runs out or the task pool is empty, which in the
source is an infinite loop). -/
def distRun (cfg : DConfig) (fuel : Nat) : DState :=
  let s0 := initState cfg
  if s0.evaluations < cfg.maxEvaluations then
    let s := loopIter cfg fuel s0
    if s.finishedLoop then finishRun cfg s else s
  else finishRun cfg s0

/-- Embedding of `DistributedNSGAII.get_result` (nsgaii.py lines 208-209). -/
def DistributedNSGAII.getResult (s : DState) : Option (List Solution) :=
  s.resultPopulation

/-! ### Properties of the dominance relation -/

lemma any_lt_zip_self (l : List ℚ) :
    ((l.zip l).any fun p => decide (p.1 < p.2)) = false := by
  induction l with
  | nil => rfl
  | cons x xs ih => rw [List.zip_cons_cons, List.any_cons, ih]; simp

lemma paretoDominates_irrefl (s : Solution) : paretoDominates s s = false := by
  unfold paretoDominates
  rw [any_lt_zip_self, Bool.and_false]

lemma dominates_irrefl (s : Solution) : dominates s s = false := by
  unfold dominates
  rw [if_neg (lt_irrefl _), if_neg (lt_irrefl _), paretoDominates_irrefl]

lemma zip_all_le_iff :
    ∀ (a b : List ℚ), a.length = b.length →
      (((a.zip b).all fun p => decide (p.1 ≤ p.2)) = true ↔
        ∀ i, i < a.length → a.getD i 0 ≤ b.getD i 0) := by
  intro a
  induction a with
  | nil => intro b h; simp
  | cons x xs ih =>
    intro b h
    cases b with
    | nil => simp at h
    | cons y ys =>
      have h' : xs.length = ys.length := by simpa using h
      rw [List.zip_cons_cons, List.all_cons, Bool.and_eq_true, decide_eq_true_eq, ih ys h']
      constructor
      · rintro ⟨h1, h2⟩ i hi
        cases i with
        | zero => simpa using h1
        | succ j => simpa using h2 j (by simpa using hi)
      · intro hall
        refine ⟨by simpa using hall 0 (by simp), fun j hj => ?_⟩
        simpa using hall (j + 1) (by simpa using hj)

lemma zip_any_lt_iff :
    ∀ (a b : List ℚ), a.length = b.length →
      (((a.zip b).any fun p => decide (p.1 < p.2)) = true ↔
        ∃ i, i < a.length ∧ a.getD i 0 < b.getD i 0) := by
  intro a
  induction a with
  | nil => intro b h; simp
  | cons x xs ih =>
    intro b h
    cases b with
    | nil => simp at h
    | cons y ys =>
      have h' : xs.length = ys.length := by simpa using h
      rw [List.zip_cons_cons, List.any_cons, Bool.or_eq_true, decide_eq_true_eq, ih ys h']
      constructor
      · rintro (h1 | ⟨j, hj, hlt⟩)
        · exact ⟨0, by simp, by simpa using h1⟩
        · exact ⟨j + 1, by simpa using hj, by simpa using hlt⟩
      · rintro ⟨i, hi, hlt⟩
        cases i with
        | zero => left; simpa using hlt
        | succ j => right; exact ⟨j, by simpa using hi, by simpa using hlt⟩

lemma paretoDominates_iff {n : ℕ} (a b : Solution)
    (ha : a.objectives.length = n) (hb : b.objectives.length = n) :
    paretoDominates a b = true ↔
      (∀ i, i < n → a.objectives.getD i 0 ≤ b.objectives.getD i 0) ∧
      (∃ i, i < n ∧ a.objectives.getD i 0 < b.objectives.getD i 0) := by
  unfold paretoDominates
  rw [Bool.and_eq_true, zip_all_le_iff _ _ (by rw [ha, hb]),
    zip_any_lt_iff _ _ (by rw [ha, hb]), ha]

lemma paretoDominates_trans {n : ℕ} {a b c : Solution}
    (ha : a.objectives.length = n) (hb : b.objectives.length = n)
    (hc : c.objectives.length = n)
    (h1 : paretoDominates a b = true) (h2 : paretoDominates b c = true) :
    paretoDominates a c = true := by
  rw [paretoDominates_iff a b ha hb] at h1
  rw [paretoDominates_iff b c hb hc] at h2
  rw [paretoDominates_iff a c ha hc]
  obtain ⟨i, hi, hlt⟩ := h1.2
  exact ⟨fun j hj => le_trans (h1.1 j hj) (h2.1 j hj),
    ⟨i, hi, lt_of_lt_of_le hlt (h2.1 i hi)⟩⟩

lemma dominates_true_cases {a b : Solution} (h : dominates a b = true) :
    violationDegree a < violationDegree b ∨
      (violationDegree a = violationDegree b ∧ paretoDominates a b = true) := by
  unfold dominates at h
  split_ifs at h with h1 h2
  · exact Or.inl h1
  · exact Or.inr ⟨le_antisymm (not_lt.mp h2) (not_lt.mp h1), h⟩

lemma dominates_of_lt {a b : Solution}
    (h : violationDegree a < violationDegree b) : dominates a b = true := by
  unfold dominates
  rw [if_pos h]

lemma dominates_of_eq_pareto {a b : Solution}
    (h : violationDegree a = violationDegree b)
    (hp : paretoDominates a b = true) : dominates a b = true := by
  unfold dominates
  rw [if_neg (by rw [h]; exact lt_irrefl _), if_neg (by rw [h]; exact lt_irrefl _)]
  exact hp

lemma dominates_trans {n : ℕ} {a b c : Solution}
    (ha : a.objectives.length = n) (hb : b.objectives.length = n)
    (hc : c.objectives.length = n)
    (h1 : dominates a b = true) (h2 : dominates b c = true) :
    dominates a c = true := by
  rcases dominates_true_cases h1 with hv1 | ⟨he1, hp1⟩
  · rcases dominates_true_cases h2 with hv2 | ⟨he2, _⟩
    · exact dominates_of_lt (lt_trans hv1 hv2)
    · exact dominates_of_lt (he2 ▸ hv1)
  · rcases dominates_true_cases h2 with hv2 | ⟨he2, hp2⟩
    · exact dominates_of_lt (he1 ▸ hv2)
    · exact dominates_of_eq_pareto (he1.trans he2) (paretoDominates_trans ha hb hc hp1 hp2)

lemma notDominatedIn_iff (l : List Solution) (s : Solution) :
    notDominatedIn l s = true ↔ ∀ t ∈ l, dominates t s = false := by
  simp [notDominatedIn, List.all_eq_true, Bool.not_eq_true']

/-- Any nonempty list of solutions with uniform objective dimension has a
member dominated by no member of the list (the dominance relation is a strict
partial order on such lists). -/
lemma exists_max_undominated {n : ℕ} :
    ∀ (l : List Solution), l ≠ [] → (∀ s ∈ l, s.objectives.length = n) →
      ∃ s ∈ l, ∀ t ∈ l, dominates t s = false := by
  intro l
  induction l with
  | nil => intro h; exact absurd rfl h
  | cons a l ih =>
    intro _ hlen
    cases l with
    | nil =>
      refine ⟨a, by simp, ?_⟩
      intro t ht
      have : t = a := by simpa using ht
      subst this
      exact dominates_irrefl t
    | cons b l2 =>
      obtain ⟨s, hs, hmax⟩ := ih (by simp) (fun t ht => hlen t (List.mem_cons_of_mem a ht))
      by_cases hd : dominates a s = true
      · refine ⟨a, by simp, ?_⟩
        intro t ht
        rcases List.mem_cons.mp ht with rfl | ht2
        · exact dominates_irrefl t
        · cases h : dominates t a with
          | false => rfl
          | true =>
            have hts : dominates t s = true :=
              dominates_trans (hlen t (List.mem_cons_of_mem a ht2))
                (hlen a (List.mem_cons_self a _))
                (hlen s (List.mem_cons_of_mem a hs)) h hd
            rw [hmax t ht2] at hts
            exact absurd hts (by simp)
      · refine ⟨s, List.mem_cons_of_mem a hs, ?_⟩
        intro t ht
        rcases List.mem_cons.mp ht with rfl | ht2
        · cases h : dominates t s with
          | false => rfl
          | true => exact absurd h hd
        · exact hmax t ht2

/-! ### The fronts partition the population -/

lemma peelFronts_flatten_perm {n : ℕ} :
    ∀ (fuel : ℕ) (l : List Solution), l.length ≤ fuel →
      (∀ s ∈ l, s.objectives.length = n) →
      (peelFronts fuel l).flatten.Perm l := by
  intro fuel
  induction fuel with
  | zero =>
    intro l hl _
    have : l = [] := List.eq_nil_of_length_eq_zero (Nat.le_zero.mp hl)
    subst this
    simp [peelFronts]
  | succ fuel ih =>
    intro l hl hlen
    cases l with
    | nil => simp [peelFronts]
    | cons x xs =>
      obtain ⟨s, hs, hmax⟩ :=
        exists_max_undominated (n := n) (x :: xs) (by simp) hlen
      have hsf : s ∈ (x :: xs).filter (notDominatedIn (x :: xs)) :=
        List.mem_filter.mpr ⟨hs, (notDominatedIn_iff _ _).mpr hmax⟩
      have hflen : 0 < ((x :: xs).filter (notDominatedIn (x :: xs))).length :=
        List.length_pos.mpr (List.ne_nil_of_mem hsf)
      have hperm := List.filter_append_perm (notDominatedIn (x :: xs)) (x :: xs)
      have hsum : ((x :: xs).filter (notDominatedIn (x :: xs))).length +
          ((x :: xs).filter fun s => !notDominatedIn (x :: xs) s).length =
          (x :: xs).length := by
        simpa [List.length_append] using hperm.length_eq
      have hrest : ((x :: xs).filter fun s => !notDominatedIn (x :: xs) s).length ≤ fuel := by
        have : (x :: xs).length ≤ fuel + 1 := hl
        omega
      have hrlen : ∀ t ∈ (x :: xs).filter (fun s => !notDominatedIn (x :: xs) s),
          t.objectives.length = n :=
        fun t ht => hlen t (List.mem_filter.mp ht).1
      have ihp := ih _ hrest hrlen
      show ((x :: xs).filter (notDominatedIn (x :: xs)) ::
        peelFronts fuel ((x :: xs).filter fun s => !notDominatedIn (x :: xs) s)).flatten.Perm
        (x :: xs)
      rw [List.flatten_cons]
      exact (List.Perm.append_left _ ihp).trans hperm

lemma fastNonDominatedSort_length_sum {n : ℕ} (l : List Solution)
    (hlen : ∀ s ∈ l, s.objectives.length = n) :
    ((fastNonDominatedSort l).map List.length).sum = l.length := by
  have h := (peelFronts_flatten_perm (n := n) l.length l le_rfl hlen).length_eq
  simpa [List.length_flatten] using h

/-! ### Length of the environmental selection -/

lemma crowdingPass_length (m : ℕ) (ps : List CrowdItem) :
    (crowdingPass m ps).length = ps.length := by
  simp [crowdingPass, List.length_mapIdx, List.length_insertionSort]

lemma foldl_crowdingPass_length :
    ∀ (ms : List ℕ) (ps : List CrowdItem),
      (ms.foldl (fun a m => crowdingPass m a) ps).length = ps.length := by
  intro ms
  induction ms with
  | nil => intro ps; rfl
  | cons m ms ih =>
    intro ps
    simpa [crowdingPass_length] using ih (crowdingPass m ps)

lemma crowdingRanked_length (front : List Solution) :
    (crowdingRanked front).length = front.length := by
  simp [crowdingRanked, List.length_insertionSort, foldl_crowdingPass_length,
    List.length_map, List.enum_length]

lemma crowdingSortDesc_length (front : List Solution) :
    (crowdingSortDesc front).length = front.length := by
  simp [crowdingSortDesc, List.length_map, List.length_insertionSort,
    crowdingRanked_length]

lemma selectFronts_length :
    ∀ (fs : List (List Solution)) (k : ℕ),
      (selectFronts fs k).length = min k ((fs.map List.length).sum) := by
  intro fs
  induction fs with
  | nil => intro k; simp [selectFronts]
  | cons f fs ih =>
    intro k
    by_cases h : f.length ≤ k
    · rw [selectFronts, if_pos h, List.length_append, ih]
      simp only [List.map_cons, List.sum_cons]
      omega
    · rw [selectFronts, if_neg h, List.length_take, crowdingSortDesc_length]
      simp only [List.map_cons, List.sum_cons]
      omega

lemma rcSelect_length_le (k : ℕ) (l : List Solution) :
    (rcSelect k l).length ≤ k := by
  rw [rcSelect, selectFronts_length]
  omega

lemma rcSelect_length {n : ℕ} (k : ℕ) (l : List Solution)
    (hlen : ∀ s ∈ l, s.objectives.length = n) (hk : k ≤ l.length) :
    (rcSelect k l).length = k := by
  rw [rcSelect, selectFronts_length, fastNonDominatedSort_length_sum (n := n) l hlen]
  omega

/-! ### Structural lemmas about the scheduler loop -/

lemma endOfIteration_evaluations (cfg : DConfig) (s : DState) :
    (endOfIteration cfg s).evaluations = s.evaluations + 1 := by
  simp only [endOfIteration]
  split <;> rfl

lemma endOfIteration_population (cfg : DConfig) (s : DState) :
    (endOfIteration cfg s).population = s.population := by
  simp only [endOfIteration]
  split <;> rfl

lemma endOfIteration_taskPool (cfg : DConfig) (s : DState) :
    (endOfIteration cfg s).taskPool = s.taskPool := by
  simp only [endOfIteration]
  split <;> rfl

lemma endOfIteration_finishedLoop (cfg : DConfig) (s : DState) :
    (endOfIteration cfg s).finishedLoop = s.finishedLoop := by
  simp only [endOfIteration]
  split <;> rfl

lemma endOfIteration_resultPopulation (cfg : DConfig) (s : DState) :
    (endOfIteration cfg s).resultPopulation = s.resultPopulation := by
  simp only [endOfIteration]
  split <;> rfl

lemma endOfIteration_selectLog (cfg : DConfig) (s : DState) :
    (endOfIteration cfg s).selectLog = s.selectLog := by
  simp only [endOfIteration]
  split <;> rfl

/-- The loop body on an empty task pool: the `for` loop yields nothing. -/
lemma stepBody_pool_empty (cfg : DConfig) (s : DState) (h : s.taskPool.length = 0) :
    stepBody cfg s = s := by
  simp only [stepBody]
  rw [if_pos h]

/-- The loop body in the population-filling branch (nsgaii.py lines 156-161). -/
lemma stepBody_fill (cfg : DConfig) (s : DState) (hp : ¬s.taskPool.length = 0)
    (hf : s.population.length < cfg.populationSize) :
    stepBody cfg s = endOfIteration cfg
      { s with
          population := s.population ++
            [cfg.evaluateFn (s.taskPool.getD (cfg.sched s.steps % s.taskPool.length) default)]
          evaluations := s.evaluations + 1
          taskPool := s.taskPool.eraseIdx (cfg.sched s.steps % s.taskPool.length) ++
            [cfg.createSolution s.creations]
          creations := s.creations + 1
          steps := s.steps + 1 } := by
  simp only [stepBody]
  rw [if_neg hp, if_pos hf]

/-- The loop body in the steady-state reproduction branch (nsgaii.py lines
163-187). -/
lemma stepBody_steady (cfg : DConfig) (s : DState) (hp : ¬s.taskPool.length = 0)
    (hf : ¬s.population.length < cfg.populationSize)
    (hb : s.evaluations + 1 < cfg.maxEvaluations) :
    stepBody cfg s = endOfIteration cfg
      { s with
          population := rcSelect cfg.populationSize (s.population ++
            [cfg.evaluateFn (s.taskPool.getD (cfg.sched s.steps % s.taskPool.length) default)])
          evaluations := s.evaluations + 1
          taskPool := s.taskPool.eraseIdx (cfg.sched s.steps % s.taskPool.length) ++
            [cfg.mutationOp ((cfg.crossoverOp
              [cfg.selectionOp s.populationToEvaluate s.selectionsMade,
               cfg.selectionOp s.populationToEvaluate (s.selectionsMade + 1)]).headD default)]
          selectLog := s.selectLog ++ [s.populationToEvaluate, s.populationToEvaluate]
          selectionsMade := s.selectionsMade + 2
          steps := s.steps + 1 } := by
  simp only [stepBody]
  rw [if_neg hp, if_neg hf, if_pos hb]

/-- The loop body in the budget-exhaustion branch (nsgaii.py lines 188-193):
the consumed future's result is discarded, every remaining outstanding future
is cancelled, and the `break` skips the second increment and the progress
notification. -/
lemma stepBody_cancel (cfg : DConfig) (s : DState) (hp : ¬s.taskPool.length = 0)
    (hf : ¬s.population.length < cfg.populationSize)
    (hb : ¬s.evaluations + 1 < cfg.maxEvaluations) :
    stepBody cfg s =
      { s with
          evaluations := s.evaluations + 1
          taskPool := []
          cancelledCount := s.cancelledCount +
            (s.taskPool.eraseIdx (cfg.sched s.steps % s.taskPool.length)).length
          finishedLoop := true
          steps := s.steps + 1 } := by
  simp only [stepBody]
  rw [if_neg hp, if_neg hf, if_neg hb]

lemma eraseIdx_sched_length (cfg : DConfig) (s : DState) (hp : ¬s.taskPool.length = 0) :
    (s.taskPool.eraseIdx (cfg.sched s.steps % s.taskPool.length)).length =
      s.taskPool.length - 1 := by
  rw [List.length_eraseIdx, if_pos (Nat.mod_lt _ (by omega))]

lemma stepBody_resultPopulation (cfg : DConfig) (s : DState) :
    (stepBody cfg s).resultPopulation = s.resultPopulation := by
  by_cases hp : s.taskPool.length = 0
  · rw [stepBody_pool_empty cfg s hp]
  · by_cases hf : s.population.length < cfg.populationSize
    · rw [stepBody_fill cfg s hp hf, endOfIteration_resultPopulation]
    · by_cases hb : s.evaluations + 1 < cfg.maxEvaluations
      · rw [stepBody_steady cfg s hp hf hb, endOfIteration_resultPopulation]
      · rw [stepBody_cancel cfg s hp hf hb]

lemma loopIter_resultPopulation (cfg : DConfig) :
    ∀ (fuel : ℕ) (s : DState),
      (loopIter cfg fuel s).resultPopulation = s.resultPopulation := by
  intro fuel
  induction fuel with
  | zero => intro s; rfl
  | succ n ih =>
    intro s
    simp only [loopIter]
    split
    · rfl
    · rw [ih, stepBody_resultPopulation]

lemma loopIter_of_finished (cfg : DConfig) :
    ∀ (fuel : ℕ) (s : DState), s.finishedLoop = true → loopIter cfg fuel s = s := by
  intro fuel
  induction fuel with
  | zero => intro s _; rfl
  | succ n _ =>
    intro s h
    simp only [loopIter]
    rw [if_pos h]

lemma stepBody_fill_props (cfg : DConfig) (s : DState) (hp : ¬s.taskPool.length = 0)
    (hf : s.population.length < cfg.populationSize) :
    (stepBody cfg s).finishedLoop = s.finishedLoop ∧
    (stepBody cfg s).taskPool.length = s.taskPool.length ∧
    (stepBody cfg s).evaluations = s.evaluations + 2 ∧
    (stepBody cfg s).population.length = s.population.length + 1 := by
  rw [stepBody_fill cfg s hp hf]
  refine ⟨by rw [endOfIteration_finishedLoop], ?_, ?_, ?_⟩
  · rw [endOfIteration_taskPool]
    simp only [List.length_append, List.length_cons, List.length_nil]
    rw [eraseIdx_sched_length cfg s hp]
    omega
  · rw [endOfIteration_evaluations]
  · rw [endOfIteration_population]
    simp [List.length_append]

lemma stepBody_steady_props (cfg : DConfig) (s : DState) (hp : ¬s.taskPool.length = 0)
    (hf : ¬s.population.length < cfg.populationSize)
    (hb : s.evaluations + 1 < cfg.maxEvaluations) :
    (stepBody cfg s).finishedLoop = s.finishedLoop ∧
    (stepBody cfg s).taskPool.length = s.taskPool.length ∧
    (stepBody cfg s).evaluations = s.evaluations + 2 ∧
    (stepBody cfg s).population.length ≤ cfg.populationSize := by
  rw [stepBody_steady cfg s hp hf hb]
  refine ⟨by rw [endOfIteration_finishedLoop], ?_, ?_, ?_⟩
  · rw [endOfIteration_taskPool]
    simp only [List.length_append, List.length_cons, List.length_nil]
    rw [eraseIdx_sched_length cfg s hp]
    omega
  · rw [endOfIteration_evaluations]
  · rw [endOfIteration_population]
    exact rcSelect_length_le _ _

lemma stepBody_cancel_props (cfg : DConfig) (s : DState) (hp : ¬s.taskPool.length = 0)
    (hf : ¬s.population.length < cfg.populationSize)
    (hb : ¬s.evaluations + 1 < cfg.maxEvaluations) :
    (stepBody cfg s).finishedLoop = true ∧
    (stepBody cfg s).taskPool = [] ∧
    (stepBody cfg s).evaluations = s.evaluations + 1 ∧
    (stepBody cfg s).population = s.population := by
  rw [stepBody_cancel cfg s hp hf hb]
  exact ⟨rfl, rfl, rfl, rfl⟩

/-- Preservation of the task-pool-size invariant: while the loop has not
broken out, the pool holds exactly `number_of_cores` outstanding futures. -/
lemma stepBody_pool_invariant (cfg : DConfig) (s : DState)
    (h : s.finishedLoop = false → s.taskPool.length = cfg.numberOfCores) :
    (stepBody cfg s).finishedLoop = false →
      (stepBody cfg s).taskPool.length = cfg.numberOfCores := by
  intro hnf
  by_cases hp : s.taskPool.length = 0
  · rw [stepBody_pool_empty cfg s hp] at hnf ⊢
    exact h hnf
  · by_cases hf : s.population.length < cfg.populationSize
    · obtain ⟨h1, h2, _, _⟩ := stepBody_fill_props cfg s hp hf
      rw [h2]
      exact h (by rw [← h1]; exact hnf)
    · by_cases hb : s.evaluations + 1 < cfg.maxEvaluations
      · obtain ⟨h1, h2, _, _⟩ := stepBody_steady_props cfg s hp hf hb
        rw [h2]
        exact h (by rw [← h1]; exact hnf)
      · obtain ⟨h1, _, _, _⟩ := stepBody_cancel_props cfg s hp hf hb
        rw [h1] at hnf
        exact absurd hnf (by simp)

lemma loopIter_pool_invariant (cfg : DConfig) :
    ∀ (fuel : ℕ) (s : DState),
      (s.finishedLoop = false → s.taskPool.length = cfg.numberOfCores) →
      (loopIter cfg fuel s).finishedLoop = false →
        (loopIter cfg fuel s).taskPool.length = cfg.numberOfCores := by
  intro fuel
  induction fuel with
  | zero => intro s h; exact h
  | succ n ih =>
    intro s h
    simp only [loopIter]
    split
    · exact h
    · exact ih (stepBody cfg s) (stepBody_pool_invariant cfg s h)

/-- Preservation of the population-size invariants: the population never
exceeds `population_size`, and once the loop has broken out it holds exactly
`population_size` solutions (provided the budget-exhaustion branch set the
flag). -/
lemma stepBody_pop_invariant (cfg : DConfig) (s : DState) (hnf : s.finishedLoop = false)
    (h : s.population.length ≤ cfg.populationSize) :
    (stepBody cfg s).population.length ≤ cfg.populationSize ∧
    ((stepBody cfg s).finishedLoop = true →
      (stepBody cfg s).population.length = cfg.populationSize) := by
  by_cases hp : s.taskPool.length = 0
  · rw [stepBody_pool_empty cfg s hp]
    exact ⟨h, fun hfin => absurd (hnf ▸ hfin) (by simp)⟩
  · by_cases hf : s.population.length < cfg.populationSize
    · obtain ⟨h1, _, _, h4⟩ := stepBody_fill_props cfg s hp hf
      rw [h1, h4]
      exact ⟨by omega, fun hfin => absurd (hnf ▸ hfin) (by simp)⟩
    · by_cases hb : s.evaluations + 1 < cfg.maxEvaluations
      · obtain ⟨h1, _, _, h4⟩ := stepBody_steady_props cfg s hp hf hb
        rw [h1]
        exact ⟨h4, fun hfin => absurd (hnf ▸ hfin) (by simp)⟩
      · obtain ⟨_, _, _, h4⟩ := stepBody_cancel_props cfg s hp hf hb
        rw [h4]
        exact ⟨h, fun _ => by omega⟩

lemma loopIter_pop_invariant (cfg : DConfig) :
    ∀ (fuel : ℕ) (s : DState),
      s.population.length ≤ cfg.populationSize →
      (s.finishedLoop = true → s.population.length = cfg.populationSize) →
      (loopIter cfg fuel s).population.length ≤ cfg.populationSize ∧
      ((loopIter cfg fuel s).finishedLoop = true →
        (loopIter cfg fuel s).population.length = cfg.populationSize) := by
  intro fuel
  induction fuel with
  | zero => intro s h1 h2; exact ⟨h1, h2⟩
  | succ n ih =>
    intro s h1 h2
    simp only [loopIter]
    split
    · exact ⟨h1, h2⟩
    · rename_i hnf
      have hnf' : s.finishedLoop = false := by
        cases hsf : s.finishedLoop
        · rfl
        · exact absurd hsf hnf
      obtain ⟨g1, g2⟩ := stepBody_pop_invariant cfg s hnf' h1
      exact ih (stepBody cfg s) g1 g2

/-- Fuel bound for the main loop: each consumed completion strictly decreases
this measure until the budget-exhaustion branch fires. -/
def runMeasure (cfg : DConfig) (s : DState) : Nat :=
  (cfg.populationSize + 1) * (cfg.maxEvaluations + 1 - s.evaluations) +
    (cfg.populationSize - s.population.length) + 1

/-- With at least one core the loop always breaks out of the budget within
`runMeasure` consumed completions. -/
lemma loopIter_finishes (cfg : DConfig) (hc : 1 ≤ cfg.numberOfCores) :
    ∀ (fuel : ℕ) (s : DState),
      s.taskPool.length = cfg.numberOfCores →
      s.finishedLoop = false →
      runMeasure cfg s ≤ fuel →
      (loopIter cfg fuel s).finishedLoop = true := by
  intro fuel
  induction fuel with
  | zero =>
    intro s _ _ hm
    exact absurd hm (by simp [runMeasure])
  | succ n ih =>
    intro s hpool hnf hm
    simp only [loopIter]
    rw [if_neg (by rw [hnf]; simp)]
    have hp : ¬s.taskPool.length = 0 := by omega
    by_cases hf : s.population.length < cfg.populationSize
    · obtain ⟨h1, h2, h3, h4⟩ := stepBody_fill_props cfg s hp hf
      refine ih (stepBody cfg s) (by rw [h2, hpool]) (by rw [h1, hnf]) ?_
      have hmono : (cfg.populationSize + 1) *
          (cfg.maxEvaluations + 1 - (s.evaluations + 2)) ≤
          (cfg.populationSize + 1) * (cfg.maxEvaluations + 1 - s.evaluations) :=
        Nat.mul_le_mul_left _ (by omega)
      simp only [runMeasure, h3, h4] at hm ⊢
      omega
    · by_cases hb : s.evaluations + 1 < cfg.maxEvaluations
      · obtain ⟨h1, h2, h3, h4⟩ := stepBody_steady_props cfg s hp hf hb
        refine ih (stepBody cfg s) (by rw [h2, hpool]) (by rw [h1, hnf]) ?_
        have hsplit : (cfg.populationSize + 1) *
            (cfg.maxEvaluations + 1 - s.evaluations) =
            (cfg.populationSize + 1) * (cfg.maxEvaluations + 1 - (s.evaluations + 2)) +
            (cfg.populationSize + 1) * 2 := by
          have he : cfg.maxEvaluations + 1 - s.evaluations =
              (cfg.maxEvaluations + 1 - (s.evaluations + 2)) + 2 := by omega
          rw [he, Nat.mul_add]
        simp only [runMeasure, h3] at hm ⊢
        omega
      · obtain ⟨h1, _, _, _⟩ := stepBody_cancel_props cfg s hp hf hb
        rw [loopIter_of_finished cfg n (stepBody cfg s) h1]
        exact h1

/-! ### DTLZ1.evaluate -/

/-- Embedding of `DTLZ1.evaluate` (jmetalpy/problem/multiobjective/dtlz.py
lines 28-45).  The first component of the result is the Python return value
of the call: the function body only mutates `solution.objectives` in place
and has no return statement, so the call evaluates to None.  The second
component is the mutated solution.  `math.cos` and `math.pi` are abstracted
as parameters `cosF` and `piQ`. -/
def dtlz1Evaluate (cosF : ℚ → ℚ) (piQ : ℚ)
    (numberOfVariables numberOfObjectives : Nat) (solution : Solution) :
    Option Solution × Solution :=
  let k := numberOfVariables - numberOfObjectives + 1
  let g0 := ((List.range' (numberOfVariables - k) k).map fun i =>
      (solution.vars.getD i 0 - 1/2) * (solution.vars.getD i 0 - 1/2) -
        cosF (20 * piQ * (solution.vars.getD i 0 - 1/2))).sum
  let g := 100 * ((k : ℚ) + g0)
  let obj1 := (List.range numberOfObjectives).foldl
    (fun os i => os.set i ((1 + g) * (1/2))) solution.objectives
  let obj2 := (List.range numberOfObjectives).foldl
    (fun os i =>
      let osA := (List.range (numberOfObjectives - (i + 1))).foldl
        (fun osB j => osB.set i (osB.getD i 0 * solution.vars.getD j 0)) os
      if i ≠ 0 then
        osA.set i (osA.getD i 0 * (1 - solution.vars.getD (numberOfObjectives - (i + 1)) 0))
      else osA)
    obj1
  (none, { solution with objectives := obj2 })

/-! ### Concrete configurations used to exercise the embedding -/

instance : Inhabited ProgressEvent := ⟨⟨0, 0, [], none⟩⟩

/-- Solution with a tag variable and no objectives. -/
def tagSolution (i : Nat) : Solution := ⟨[(i : ℚ)], [], []⟩

/-- Solution with a tag variable and a single (constant) objective. -/
def tagSolutionO (i : Nat) : Solution := ⟨[(i : ℚ)], [0], []⟩

/-- Scenario D of the spec: 4 cores, population 10, budget 50. -/
def cfgScenarioD : DConfig :=
  { populationSize := 10, maxEvaluations := 50, numberOfCores := 4
    createSolution := tagSolution, evaluateFn := id
    selectionOp := fun l _ => l.headD default
    crossoverOp := fun l => l, mutationOp := id
    referenceFront := none, sched := fun _ => 0, elapsed := 7 }

/-- Single-core run with population 2 and budget 10. -/
def cfgSmall : DConfig :=
  { populationSize := 2, maxEvaluations := 10, numberOfCores := 1
    createSolution := tagSolutionO, evaluateFn := id
    selectionOp := fun l _ => l.headD default
    crossoverOp := fun l => l, mutationOp := id
    referenceFront := none, sched := fun _ => 0, elapsed := 7 }

/-- Single-core run with population 2 and budget 20 (long enough to notify). -/
def cfgNotify : DConfig :=
  { populationSize := 2, maxEvaluations := 20, numberOfCores := 1
    createSolution := tagSolutionO, evaluateFn := id
    selectionOp := fun l _ => l.headD default
    crossoverOp := fun l => l, mutationOp := id
    referenceFront := none, sched := fun _ => 0, elapsed := 7 }

/-- Single-core run with population 1 and budget 2. -/
def cfgTiny : DConfig :=
  { populationSize := 1, maxEvaluations := 2, numberOfCores := 1
    createSolution := tagSolution, evaluateFn := id
    selectionOp := fun l _ => l.headD default
    crossoverOp := fun l => l, mutationOp := id
    referenceFront := none, sched := fun _ => 0, elapsed := 7 }

/-- Single-core run whose budget is zero: the `while` guard fails at once. -/
def cfgNoBudget : DConfig :=
  { populationSize := 5, maxEvaluations := 0, numberOfCores := 1
    createSolution := tagSolution, evaluateFn := id
    selectionOp := fun l _ => l.headD default
    crossoverOp := fun l => l, mutationOp := id
    referenceFront := none, sched := fun _ => 0, elapsed := 7 }

/-- Single-core run with population 1 and budget 1. -/
def cfgTerm : DConfig :=
  { populationSize := 1, maxEvaluations := 1, numberOfCores := 1
    createSolution := tagSolution, evaluateFn := id
    selectionOp := fun l _ => l.headD default
    crossoverOp := fun l => l, mutationOp := id
    referenceFront := none, sched := fun _ => 0, elapsed := 7 }

/-! ### Claims -/

/-- Claim C1: the claim states that in the steady-state phase the two parents
are chosen by the Selection operator from the current population (the one just
produced by the replacement step).  The code instead passes
`population_to_evaluate` — the initial list of `number_of_cores` unevaluated
solutions created before the loop, never updated — to every
`selection_operator.execute` call (nsgaii.py line 176).  This run exhibits the
divergence: after one steady-state step both selection calls received the
initial one-element creation list, which differs from the current
population. -/
theorem c1_selection_source_bug :
    (loopIter cfgSmall 3 (initState cfgSmall)).selectLog =
      [(initState cfgSmall).populationToEvaluate,
       (initState cfgSmall).populationToEvaluate] ∧
    (loopIter cfgSmall 3 (initState cfgSmall)).selectLog ≠ [] ∧
    (initState cfgSmall).populationToEvaluate ≠
      (loopIter cfgSmall 3 (initState cfgSmall)).population := by decide

/-- Claim C2: Scenario D — 4 cores, population 10, budget 50: the run
terminates, the evaluations counter reaches (indeed overshoots) the budget,
the final population has exactly 10 solutions, and the counter passed through
every multiple of 10 up to the budget (witnessed by the notification log). -/
theorem c2_scenario_d :
    (distRun cfgScenarioD 30).finishedLoop = true ∧
    cfgScenarioD.maxEvaluations ≤ (distRun cfgScenarioD 30).evaluations ∧
    (distRun cfgScenarioD 30).resultPopulation.isSome = true ∧
    ((distRun cfgScenarioD 30).resultPopulation.getD []).length = 10 ∧
    (distRun cfgScenarioD 30).notifyLog.map (fun e => e.evaluations) =
      [10, 20, 30, 40, 50] := by decide

/-- Claim C3 counterexample: not every processed completion advances the
counter by exactly two.  In a concrete run (1 core, population 1, budget 2),
the completion consumed from the reachable state after one step — a live
state with a nonempty pool — advances the counter by exactly one, because the
budget-exhaustion `break` skips the second increment. -/
theorem c3_counterexample :
    (loopIter cfgTiny 1 (initState cfgTiny)).finishedLoop = false ∧
    (loopIter cfgTiny 1 (initState cfgTiny)).taskPool.length ≠ 0 ∧
    (stepBody cfgTiny (loopIter cfgTiny 1 (initState cfgTiny))).evaluations =
      (loopIter cfgTiny 1 (initState cfgTiny)).evaluations + 1 ∧
    (loopIter cfgTiny 1 (initState cfgTiny)).evaluations + 1 ≠
      (loopIter cfgTiny 1 (initState cfgTiny)).evaluations + 2 := by decide

/-- Claim C3 (amended): every processed completion advances the evaluations
counter by exactly two (once at intake, once after the per-completion step),
except the completion at which budget exhaustion is detected: that one
advances the counter by exactly one and terminates the loop. -/
theorem c3_amended_double_increment (cfg : DConfig) (s : DState)
    (hp : s.taskPool.length ≠ 0) (hnf : s.finishedLoop = false) :
    ((stepBody cfg s).finishedLoop = false ∧
      (stepBody cfg s).evaluations = s.evaluations + 2) ∨
    ((stepBody cfg s).finishedLoop = true ∧
      (stepBody cfg s).evaluations = s.evaluations + 1) := by
  by_cases hf : s.population.length < cfg.populationSize
  · obtain ⟨h1, _, h3, _⟩ := stepBody_fill_props cfg s hp hf
    exact Or.inl ⟨by rw [h1, hnf], h3⟩
  · by_cases hb : s.evaluations + 1 < cfg.maxEvaluations
    · obtain ⟨h1, _, h3, _⟩ := stepBody_steady_props cfg s hp hf hb
      exact Or.inl ⟨by rw [h1, hnf], h3⟩
    · obtain ⟨h1, _, h3, _⟩ := stepBody_cancel_props cfg s hp hf hb
      exact Or.inr ⟨h1, h3⟩

/-- Claim C3 witness: the amended statement applied to a concrete live
state. -/
theorem c3_amended_witness :
    (loopIter cfgTiny 1 (initState cfgTiny)).taskPool.length ≠ 0 ∧
    (loopIter cfgTiny 1 (initState cfgTiny)).finishedLoop = false ∧
    (((stepBody cfgTiny (loopIter cfgTiny 1 (initState cfgTiny))).finishedLoop = false ∧
       (stepBody cfgTiny (loopIter cfgTiny 1 (initState cfgTiny))).evaluations =
         (loopIter cfgTiny 1 (initState cfgTiny)).evaluations + 2) ∨
     ((stepBody cfgTiny (loopIter cfgTiny 1 (initState cfgTiny))).finishedLoop = true ∧
       (stepBody cfgTiny (loopIter cfgTiny 1 (initState cfgTiny))).evaluations =
         (loopIter cfgTiny 1 (initState cfgTiny)).evaluations + 1)) :=
  ⟨by decide, by decide,
    c3_amended_double_increment cfgTiny _ (by decide) (by decide)⟩

/-- Claim C4: the task-pool invariant — `number_of_cores` futures are
submitted before the loop, and as long as the loop has not broken out (one
task is submitted for every completion consumed) the pool again holds exactly
`number_of_cores` outstanding futures. -/
theorem c4_pool_invariant (cfg : DConfig) (fuel : ℕ)
    (h : (loopIter cfg fuel (initState cfg)).finishedLoop = false) :
    (initState cfg).taskPool.length = cfg.numberOfCores ∧
    (loopIter cfg fuel (initState cfg)).taskPool.length = cfg.numberOfCores := by
  have hinit : (initState cfg).taskPool.length = cfg.numberOfCores := by
    simp [initState]
  exact ⟨hinit, loopIter_pool_invariant cfg fuel (initState cfg) (fun _ => hinit) h⟩

/-- Claim C4 witness: the invariant holds at a concrete live state three
completions into a run. -/
theorem c4_pool_invariant_witness :
    (loopIter cfgSmall 3 (initState cfgSmall)).finishedLoop = false ∧
    ((initState cfgSmall).taskPool.length = cfgSmall.numberOfCores ∧
     (loopIter cfgSmall 3 (initState cfgSmall)).taskPool.length =
       cfgSmall.numberOfCores) :=
  ⟨by decide, c4_pool_invariant cfgSmall 3 (by decide)⟩

/-- Claim C5: when budget exhaustion is detected at a steady-state completion
(population full, `evaluations + 1 >= max_evaluations` after intake), the step
cancels every remaining outstanding future, discards the completed result,
changes neither the population nor the selection/notification logs, and no
amount of further iteration changes the state — no completed result is ever
again accepted or used for reproduction. -/
theorem c5_cancellation (cfg : DConfig) (s : DState)
    (hp : s.taskPool.length ≠ 0) (hnf : s.finishedLoop = false)
    (hfull : cfg.populationSize ≤ s.population.length)
    (hex : cfg.maxEvaluations ≤ s.evaluations + 1) :
    (stepBody cfg s).finishedLoop = true ∧
    (stepBody cfg s).taskPool = [] ∧
    (stepBody cfg s).cancelledCount = s.cancelledCount + (s.taskPool.length - 1) ∧
    (stepBody cfg s).population = s.population ∧
    (stepBody cfg s).selectLog = s.selectLog ∧
    (stepBody cfg s).notifyLog = s.notifyLog ∧
    ∀ k, loopIter cfg k (stepBody cfg s) = stepBody cfg s := by
  have hf : ¬s.population.length < cfg.populationSize := by omega
  have hb : ¬s.evaluations + 1 < cfg.maxEvaluations := by omega
  rw [stepBody_cancel cfg s hp hf hb]
  refine ⟨rfl, rfl, ?_, rfl, rfl, rfl, fun k => loopIter_of_finished cfg k _ rfl⟩
  rw [eraseIdx_sched_length cfg s hp]

/-- Claim C5 witness: the cancellation behaviour at a concrete reachable
exhaustion state. -/
theorem c5_cancellation_witness :
    (loopIter cfgTiny 1 (initState cfgTiny)).taskPool.length ≠ 0 ∧
    (loopIter cfgTiny 1 (initState cfgTiny)).finishedLoop = false ∧
    cfgTiny.populationSize ≤ (loopIter cfgTiny 1 (initState cfgTiny)).population.length ∧
    cfgTiny.maxEvaluations ≤ (loopIter cfgTiny 1 (initState cfgTiny)).evaluations + 1 ∧
    ((stepBody cfgTiny (loopIter cfgTiny 1 (initState cfgTiny))).finishedLoop = true ∧
     (stepBody cfgTiny (loopIter cfgTiny 1 (initState cfgTiny))).taskPool = [] ∧
     (stepBody cfgTiny (loopIter cfgTiny 1 (initState cfgTiny))).cancelledCount =
       (loopIter cfgTiny 1 (initState cfgTiny)).cancelledCount +
         ((loopIter cfgTiny 1 (initState cfgTiny)).taskPool.length - 1) ∧
     (stepBody cfgTiny (loopIter cfgTiny 1 (initState cfgTiny))).population =
       (loopIter cfgTiny 1 (initState cfgTiny)).population ∧
     (stepBody cfgTiny (loopIter cfgTiny 1 (initState cfgTiny))).selectLog =
       (loopIter cfgTiny 1 (initState cfgTiny)).selectLog ∧
     (stepBody cfgTiny (loopIter cfgTiny 1 (initState cfgTiny))).notifyLog =
       (loopIter cfgTiny 1 (initState cfgTiny)).notifyLog ∧
     ∀ k, loopIter cfgTiny k (stepBody cfgTiny (loopIter cfgTiny 1 (initState cfgTiny))) =
       stepBody cfgTiny (loopIter cfgTiny 1 (initState cfgTiny))) :=
  ⟨by decide, by decide, by decide, by decide,
    c5_cancellation cfgTiny _ (by decide) (by decide) (by decide) (by decide)⟩

/-- Claim C6: the claim states the progress event carries the current
evaluations count, the computing time elapsed so far, and the current
population.  The code notifies with the correct counter but passes
`population_to_evaluate` (the initial, never-updated creation list) as
`SOLUTIONS` (nsgaii.py line 198) and `self.total_computing_time` — still `0`
during the whole run, it is only assigned after the loop — as
`COMPUTING_TIME` (line 124).  In this concrete run the event sent at
`evaluations = 10` carries computing time 0 and the one-element initial list,
while the population at that moment has two members. -/
theorem c6_progress_event_bug :
    (loopIter cfgNotify 5 (initState cfgNotify)).notifyLog.length = 1 ∧
    ((loopIter cfgNotify 5 (initState cfgNotify)).notifyLog.getD 0 default).evaluations
      = 10 ∧
    ((loopIter cfgNotify 5 (initState cfgNotify)).notifyLog.getD 0 default).computingTime
      = 0 ∧
    ((loopIter cfgNotify 5 (initState cfgNotify)).notifyLog.getD 0 default).solutions =
      (initState cfgNotify).populationToEvaluate ∧
    ((loopIter cfgNotify 5 (initState cfgNotify)).notifyLog.getD 0 default).solutions ≠
      (loopIter cfgNotify 5 (initState cfgNotify)).population := by decide

/-- Claim C7: `NSGAII.replacement(P, O)` is ranking-and-crowding-distance
selection with target `population_size` applied to the concatenation `P ++ O`,
and the result has exactly `population_size` members whenever the target does
not exceed `len(P) + len(O)` (for populations satisfying the uniform
objective-dimension invariant of spec §3). -/
theorem c7_replacement (popSize n : ℕ) (P O : List Solution)
    (hlen : ∀ s ∈ P ++ O, s.objectives.length = n)
    (hk : popSize ≤ (P ++ O).length) :
    NSGAII.replacement popSize P O = rcSelect popSize (P ++ O) ∧
    (NSGAII.replacement popSize P O).length = popSize :=
  ⟨rfl, rcSelect_length (n := n) popSize (P ++ O) hlen hk⟩

/-- Claim C7 witness: the replacement contract at a concrete pair of
one-element populations. -/
theorem c7_replacement_witness :
    (∀ s ∈ ([⟨[], [1], []⟩] ++ [⟨[], [2], []⟩] : List Solution),
      s.objectives.length = 1) ∧
    1 ≤ (([⟨[], [1], []⟩] ++ [⟨[], [2], []⟩] : List Solution)).length ∧
    (NSGAII.replacement 1 [⟨[], [1], []⟩] [⟨[], [2], []⟩] =
        rcSelect 1 ([⟨[], [1], []⟩] ++ [⟨[], [2], []⟩]) ∧
      (NSGAII.replacement 1 [⟨[], [1], []⟩] [⟨[], [2], []⟩]).length = 1) :=
  ⟨by decide, by decide,
    c7_replacement 1 1 [⟨[], [1], []⟩] [⟨[], [2], []⟩] (by decide) (by decide)⟩

/-- Claim C8: the claim (and the contract documented on `Problem.evaluate`,
problem.py lines 39-45) states that `evaluate` returns the evaluated
solution, never None.  `DTLZ1.evaluate` (dtlz.py lines 28-45) fills the
objectives in place but has no return statement, so the call returns None:
at a concrete input the model's return value is `none` even though the
mutated solution's objectives were filled with the DTLZ1 values. -/
theorem c8_dtlz1_returns_none :
    (dtlz1Evaluate (fun _ => 1) (22 / 7) 3 2 ⟨[1/2, 1/2, 1/2], [0, 0], []⟩).1 = none ∧
    (dtlz1Evaluate (fun _ => 1) (22 / 7) 3 2 ⟨[1/2, 1/2, 1/2], [0, 0], []⟩).2.objectives =
      [1/4, 1/4] := by
  constructor
  · rfl
  · norm_num [dtlz1Evaluate, List.range_succ, List.range', List.foldl_append,
      List.foldl_cons, List.foldl_nil, List.map_cons, List.map_nil, List.sum_cons,
      List.sum_nil, List.set_cons_zero, List.set_cons_succ, List.getD_cons_zero,
      List.getD_cons_succ]

/-- Claim C9 counterexample: the claim states the run ends only after
`population_size` solutions have been accepted; but with `max_evaluations = 0`
the `while` guard fails immediately, the run terminates without ever entering
the loop, and `self.population` is assigned the empty list — fewer than
`population_size` solutions. -/
theorem c9_counterexample :
    (distRun cfgNoBudget 5).resultPopulation = some [] ∧
    ((distRun cfgNoBudget 5).resultPopulation.getD []).length <
      cfgNoBudget.populationSize := by decide

/-- Claim C9 (amended): provided `max_evaluations ≥ 1` (and at least one
core), the run terminates through the cancellation branch with a final
population of exactly `population_size` solutions; the cancellation branch is
reachable only with a full population; and during the filling phase every
completion is accepted unconditionally — regardless of the evaluations
counter — with a fresh random solution submitted in its place. -/
theorem c9_amended_fill_then_cancel (cfg : DConfig) (hc : 1 ≤ cfg.numberOfCores)
    (hm : 1 ≤ cfg.maxEvaluations) (fuel : ℕ)
    (hfuel : runMeasure cfg (initState cfg) ≤ fuel) :
    ((loopIter cfg fuel (initState cfg)).finishedLoop = true ∧
     (loopIter cfg fuel (initState cfg)).population.length = cfg.populationSize ∧
     (distRun cfg fuel).resultPopulation =
       some (loopIter cfg fuel (initState cfg)).population) ∧
    (∀ s : DState, s.finishedLoop = false → (stepBody cfg s).finishedLoop = true →
      cfg.populationSize ≤ s.population.length) ∧
    (∀ s : DState, s.taskPool.length ≠ 0 → s.population.length < cfg.populationSize →
      (stepBody cfg s).population = s.population ++
        [cfg.evaluateFn (s.taskPool.getD (cfg.sched s.steps % s.taskPool.length) default)] ∧
      (stepBody cfg s).taskPool.length = s.taskPool.length ∧
      (stepBody cfg s).finishedLoop = s.finishedLoop) := by
  have hinitPool : (initState cfg).taskPool.length = cfg.numberOfCores := by
    simp [initState]
  have hfin := loopIter_finishes cfg hc fuel (initState cfg) hinitPool rfl hfuel
  have hpop := loopIter_pop_invariant cfg fuel (initState cfg)
    (by simp [initState]) (by intro h; simp [initState] at h)
  refine ⟨⟨hfin, hpop.2 hfin, ?_⟩, ?_, ?_⟩
  · have h0 : (initState cfg).evaluations < cfg.maxEvaluations := by
      have he : (initState cfg).evaluations = 0 := rfl
      omega
    simp only [distRun]
    rw [if_pos h0, if_pos hfin]
    rfl
  · intro s hnf hfin2
    by_cases hp : s.taskPool.length = 0
    · rw [stepBody_pool_empty cfg s hp, hnf] at hfin2
      exact absurd hfin2 (by simp)
    · by_cases hf2 : s.population.length < cfg.populationSize
      · obtain ⟨h1, _, _, _⟩ := stepBody_fill_props cfg s hp hf2
        rw [h1, hnf] at hfin2
        exact absurd hfin2 (by simp)
      · omega
  · intro s hp hf2
    obtain ⟨h1, h2, _, _⟩ := stepBody_fill_props cfg s hp hf2
    refine ⟨?_, h2, h1⟩
    rw [stepBody_fill cfg s hp hf2, endOfIteration_population]

/-- Claim C9 witness: the amended statement applied to a concrete
configuration with one core, population 1 and budget 1. -/
theorem c9_amended_witness :
    1 ≤ cfgTerm.numberOfCores ∧ 1 ≤ cfgTerm.maxEvaluations ∧
    runMeasure cfgTerm (initState cfgTerm) ≤ 6 ∧
    (((loopIter cfgTerm 6 (initState cfgTerm)).finishedLoop = true ∧
      (loopIter cfgTerm 6 (initState cfgTerm)).population.length =
        cfgTerm.populationSize ∧
      (distRun cfgTerm 6).resultPopulation =
        some (loopIter cfgTerm 6 (initState cfgTerm)).population) ∧
     (∀ s : DState, s.finishedLoop = false →
        (stepBody cfgTerm s).finishedLoop = true →
        cfgTerm.populationSize ≤ s.population.length) ∧
     (∀ s : DState, s.taskPool.length ≠ 0 →
        s.population.length < cfgTerm.populationSize →
        (stepBody cfgTerm s).population = s.population ++
          [cfgTerm.evaluateFn
            (s.taskPool.getD (cfgTerm.sched s.steps % s.taskPool.length) default)] ∧
        (stepBody cfgTerm s).taskPool.length = s.taskPool.length ∧
        (stepBody cfgTerm s).finishedLoop = s.finishedLoop)) :=
  ⟨by decide, by decide, by decide,
    c9_amended_fill_then_cancel cfgTerm (by decide) (by decide) 6 (by decide)⟩

/-- Claim C10: `get_result` returns None before `run` has completed:
`self.population` is None after construction and is still None after any
number of loop iterations — it is only assigned at the very end of `run`. -/
theorem c10_result_none_before_completion (cfg : DConfig) :
    DistributedNSGAII.getResult (initState cfg) = none ∧
    ∀ fuel, DistributedNSGAII.getResult (loopIter cfg fuel (initState cfg)) = none := by
  refine ⟨rfl, fun fuel => ?_⟩
  show (loopIter cfg fuel (initState cfg)).resultPopulation = none
  rw [loopIter_resultPopulation]
  rfl
